import Mathlib

/-
Verification development for the labeled-example commit pipeline of
`backend/data_import/pipeline/labeled_examples.py`.

The pipeline ingests staged `Record`s (a document plus transient labels) and
commits them to a relational store: examples are bulk-inserted, implied label
types are derived and inserted idempotently, and labels are bulk-inserted
against a name-to-LabelType mapping.  The relation variant additionally
persists spans first, rebuilds a transient-id-to-durable-Span mapping, and
resolves relation endpoints through it.

The store (Django ORM) is embedded per its interface: bulk insert assigns
identities and returns rows in input order; `ignore_conflicts` inserts skip
rows whose natural key `(project, text)` is already present.  Fallible Python
code (KeyError on dict lookup) is embedded with `Except String`.
-/

set_option autoImplicit false

namespace Doccano

/-- Document payload of a record (`BaseData`: content plus source filename). -/
structure BaseData where
  text : String
  filename : String
deriving DecidableEq

/-- Transient span label payload: `id` is the in-memory reference key used by
relation labels, `uuid` the identifier preserved through persistence. -/
structure SpanPayload where
  id : Nat
  uuid : String
  label : String
  start_offset : Nat
  end_offset : Nat
deriving DecidableEq

/-- Transient relation label payload: references two spans by their `id`. -/
structure RelationPayload where
  from_id : Nat
  to_id : Nat
  type : String
deriving DecidableEq

/-- The closed set of transient label variants of `pipeline/labels.py`. -/
inductive Label where
  | category (label : String)
  | span (s : SpanPayload)
  | text (t : String)
  | relation (r : RelationPayload)
deriving DecidableEq

/-- Tag standing for the concrete Python class of a label, used to embed the
`isinstance(label, label_class)` filters. -/
inductive LabelKind where
  | categoryK
  | spanK
  | textK
  | relationK
deriving DecidableEq

/-- Embeds `isinstance(label, label_class)`. -/
def Label.isKind : Label → LabelKind → Bool
  | .category _, .categoryK => true
  | .span _, .spanK => true
  | .text _, .textK => true
  | .relation _, .relationK => true
  | _, _ => false

/-- Modelled from the spec: `Label.has_name` of `pipeline/labels.py` (not under
`src/`); Text labels carry no type name, all other variants do. -/
def Label.has_name : Label → Bool
  | .text _ => false
  | _ => true

/-- Modelled from the spec: the `name` property of `pipeline/labels.py` (not
under `src/`); the empty string stands for Python's falsy/absent name. -/
def Label.name : Label → String
  | .category c => c
  | .span s => s.label
  | .text _ => ""
  | .relation r => r.type

/-- Durable `Example` row (document), identity assigned by the store. -/
structure ExampleRow where
  id : Nat
  project : Nat
  text : String
  filename : String
  meta : List (String × String)
deriving DecidableEq

/-- Durable `LabelType` row, natural uniqueness key `(project, text)`.
The three concrete variants (CategoryType / SpanType / RelationType) live in
three separate tables of the `Store`. -/
structure LabelTypeRow where
  id : Nat
  project : Nat
  text : String
deriving DecidableEq

/-- Durable `Category` row. -/
structure CategoryRow where
  id : Nat
  example_id : Nat
  user : Nat
  label : Nat
deriving DecidableEq

/-- Durable `Span` row; `uuid` is copied verbatim from the transient span. -/
structure SpanRow where
  id : Nat
  example_id : Nat
  user : Nat
  uuid : String
  start_offset : Nat
  end_offset : Nat
  label : Nat
deriving DecidableEq

/-- Durable `TextLabel` row. -/
structure TextRow where
  id : Nat
  example_id : Nat
  user : Nat
  text : String
deriving DecidableEq

/-- Durable `Relation` row; `from_id` / `to_id` reference durable Span ids. -/
structure RelationRow where
  id : Nat
  example_id : Nat
  user : Nat
  from_id : Nat
  to_id : Nat
  type : Nat
deriving DecidableEq

/-- A durable label of any variant, as returned by `Label.create`
(Python's polymorphic `LabelModel`). -/
inductive DurableLabel where
  | category (c : CategoryRow)
  | span (s : SpanRow)
  | text (t : TextRow)
  | relation (r : RelationRow)
deriving DecidableEq

def DurableLabel.asCategory : DurableLabel → Option CategoryRow
  | .category c => some c
  | _ => none

def DurableLabel.asSpan : DurableLabel → Option SpanRow
  | .span s => some s
  | _ => none

def DurableLabel.asText : DurableLabel → Option TextRow
  | .text t => some t
  | _ => none

def DurableLabel.asRelation : DurableLabel → Option RelationRow
  | .relation r => some r
  | _ => none

/-- An unsaved `LabelType` instance tagged with its concrete class, as
produced by `Label.create_type`; the project is supplied at insert time. -/
inductive UnsavedLabelType where
  | categoryType (text : String)
  | spanType (text : String)
  | relationType (text : String)
deriving DecidableEq

/-- Modelled from the spec: `Label.create_type` of `pipeline/labels.py` (not
under `src/`): a label with a non-empty name materializes the `LabelType` of
its variant, Text labels and labels with an empty name materialize none. -/
def Label.create_type : Label → Option UnsavedLabelType
  | .category c => if c = "" then none else some (.categoryType c)
  | .span s => if s.label = "" then none else some (.spanType s.label)
  | .text _ => none
  | .relation r => if r.type = "" then none else some (.relationType r.type)

/-- Python dict lookup on an association list built by a comprehension:
a later entry for the same key overwrites an earlier one. -/
def dictGet : List (Nat × SpanRow) → Nat → Option SpanRow
  | [], _ => none
  | (k, v) :: rest, k' =>
    match dictGet rest k' with
    | some v' => some v'
    | none => if k = k' then some v else none

/-- Left-to-right effectful map in `Except`: embeds a Python list
comprehension in which each element may raise (the first raise aborts). -/
def mapE {α β : Type} (f : α → Except String β) : List α → Except String (List β)
  | [] => .ok []
  | x :: xs =>
    match f x with
    | .error e => .error e
    | .ok y =>
      match mapE f xs with
      | .error e => .error e
      | .ok ys => .ok (y :: ys)

/-- Modelled from the spec: `Label.create` of `pipeline/labels.py` (not under
`src/`): each variant materializes its durable row against the already
persisted example, resolving its type name through the mapping (KeyError when
absent); a relation additionally resolves both endpoints through the
`span_mapping` keyword argument (KeyError when the kwarg or a key is absent).
The durable id field is 0 until the store assigns it at bulk insert. -/
def Label.create (l : Label) (user : Nat) (ex : ExampleRow)
    (mapping : String → Option LabelTypeRow)
    (span_mapping : Option (List (Nat × SpanRow))) : Except String DurableLabel :=
  match l with
  | .category c =>
    match mapping c with
    | some t => .ok (.category ⟨0, ex.id, user, t.id⟩)
    | none => .error ("KeyError: " ++ c)
  | .span s =>
    match mapping s.label with
    | some t => .ok (.span ⟨0, ex.id, user, s.uuid, s.start_offset, s.end_offset, t.id⟩)
    | none => .error ("KeyError: " ++ s.label)
  | .text t => .ok (.text ⟨0, ex.id, user, t⟩)
  | .relation r =>
    match span_mapping with
    | none => .error ("KeyError: span_mapping")
    | some m =>
      match mapping r.type with
      | none => .error ("KeyError: " ++ r.type)
      | some t =>
        match dictGet m r.from_id with
        | none => .error ("KeyError: from_id")
        | some dA =>
          match dictGet m r.to_id with
          | none => .error ("KeyError: to_id")
          | some dB => .ok (.relation ⟨0, ex.id, user, dA.id, dB.id, t.id⟩)

/-- The non-fatal parse warning value returned by `Record.clean`. -/
structure FileParseException where
  filename : String
  line_num : Int
  message : String
deriving DecidableEq

/-- Modelled from the spec: an external cleaning rule of
`pipeline/cleaners.py` (not under `src/`): a function from the label list to
the filtered label list, plus a diagnostic message. -/
structure Cleaner where
  clean : List Label → List Label
  message : String

/-- A staged `Record`: one document's data plus its transient labels.
The `label` field embeds the Python `_label` attribute (the raw list). -/
structure Record where
  data : BaseData
  label : List Label
  meta : List (String × String)
  line_num : Int
deriving DecidableEq

/-- The `Record.label` property: the sublist of labels that have a (truthy)
name, as rendered for diagnostics.  (The source renders each as a dict; only
the selection matters here, so the labels themselves are returned.) -/
def Record.named_label (r : Record) : List Label :=
  r.label.filter (fun l => l.has_name && !(l.name == ""))

/-- `Record.clean`: applies the cleaner to the raw label list, replaces the
list with the cleaner's output, and returns a `FileParseException` when the
new list's length differs from the length of the `label` property (the named
labels) computed on the pre-clean list. -/
def Record.clean (r : Record) (cleaner : Cleaner) : Record × Option FileParseException :=
  let label := cleaner.clean r.label
  let changed := label.length ≠ r.named_label.length
  ({ r with label := label },
    if changed then some ⟨r.data.filename, r.line_num, cleaner.message⟩ else none)

/-- Modelled from the spec: `BaseData.create` of `pipeline/data.py` (not under
`src/`): projects the document content, filename and meta into an unsaved
`Example` for the given project. -/
def BaseData.create (d : BaseData) (project : Nat) (meta : List (String × String)) : ExampleRow :=
  ⟨0, project, d.text, d.filename, meta⟩

/-- `Record.create_data`: projects the record's data and meta into an unsaved
Example. -/
def Record.create_data (r : Record) (project : Nat) : ExampleRow :=
  r.data.create project r.meta

/-- `Record.create_label_type`: maps `create_type` over the labels and drops
the `None` results (`filter(None, labels)`).  The project is attached at
insert time, so the unsaved types carry only variant and name. -/
def Record.create_label_type (r : Record) : List UnsavedLabelType :=
  (r.label.map Label.create_type).filterMap id

/-- `Record.create_label`: with no class filter, every label is materialized
with only `(user, example, mapping)` (the extra kwargs are not forwarded);
with a class filter, only labels of that class are materialized and the extra
`span_mapping` kwarg is forwarded. -/
def Record.create_label (r : Record) (user : Nat) (ex : ExampleRow)
    (mapping : String → Option LabelTypeRow) (label_class : Option LabelKind)
    (span_mapping : Option (List (Nat × SpanRow))) : Except String (List DurableLabel) :=
  match label_class with
  | none => mapE (fun l => l.create user ex mapping none) r.label
  | some k => mapE (fun l => l.create user ex mapping span_mapping)
      (r.label.filter (fun l => l.isKind k))

/-- `Record.select_label`: the sublist of labels of one variant. -/
def Record.select_label (r : Record) (k : LabelKind) : List Label :=
  r.label.filter (fun l => l.isKind k)

/-- Payload projection of `select_label SpanLabel` (used to state theorems
about the transient spans of a record). -/
def Record.selectSpans (r : Record) : List SpanPayload :=
  r.label.filterMap (fun l => match l with | .span s => some s | _ => none)

/-- Payload projection of the relation labels of a record. -/
def Record.selectRelations (r : Record) : List RelationPayload :=
  r.label.filterMap (fun l => match l with | .relation p => some p | _ => none)

/-- The relational store: one table per durable entity kind (the three
`LabelType` variants each get their own table, as in the ORM), plus the next
identity to assign.  Bulk inserts append in input order. -/
structure Store where
  examples : List ExampleRow
  category_types : List LabelTypeRow
  span_types : List LabelTypeRow
  relation_types : List LabelTypeRow
  categories : List CategoryRow
  spans : List SpanRow
  texts : List TextRow
  relations : List RelationRow
  next_id : Nat
deriving DecidableEq

def assignExampleIds : List ExampleRow → Nat → List ExampleRow
  | [], _ => []
  | e :: es, n => { e with id := n } :: assignExampleIds es (n + 1)

def assignCategoryIds : List CategoryRow → Nat → List CategoryRow
  | [], _ => []
  | e :: es, n => { e with id := n } :: assignCategoryIds es (n + 1)

def assignSpanIds : List SpanRow → Nat → List SpanRow
  | [], _ => []
  | e :: es, n => { e with id := n } :: assignSpanIds es (n + 1)

def assignTextIds : List TextRow → Nat → List TextRow
  | [], _ => []
  | e :: es, n => { e with id := n } :: assignTextIds es (n + 1)

def assignRelationIds : List RelationRow → Nat → List RelationRow
  | [], _ => []
  | e :: es, n => { e with id := n } :: assignRelationIds es (n + 1)

/-- `Example.objects.bulk_create`: assigns identities, appends, and returns
the inserted rows in input order (the store interface of the spec). -/
def bulkCreateExamples (rows : List ExampleRow) (st : Store) : List ExampleRow × Store :=
  let newRows := assignExampleIds rows st.next_id
  (newRows, { st with examples := st.examples ++ newRows, next_id := st.next_id + rows.length })

def insertCategories (rows : List CategoryRow) (st : Store) : Store :=
  { st with categories := st.categories ++ assignCategoryIds rows st.next_id,
            next_id := st.next_id + rows.length }

def insertSpans (rows : List SpanRow) (st : Store) : Store :=
  { st with spans := st.spans ++ assignSpanIds rows st.next_id,
            next_id := st.next_id + rows.length }

def insertTexts (rows : List TextRow) (st : Store) : Store :=
  { st with texts := st.texts ++ assignTextIds rows st.next_id,
            next_id := st.next_id + rows.length }

def insertRelations (rows : List RelationRow) (st : Store) : Store :=
  { st with relations := st.relations ++ assignRelationIds rows st.next_id,
            next_id := st.next_id + rows.length }

/-- Number of rows of a label-type table with natural key `(project, t)`. -/
def countKey (table : List LabelTypeRow) (project : Nat) (t : String) : Nat :=
  (table.filter (fun row => row.project == project && row.text == t)).length

/-- `bulk_create(..., ignore_conflicts=True)` on one label-type table: each
row is inserted unless a row with its natural key `(project, text)` is
already present (in the table or earlier in the same batch); skipped rows get
no identity.  Returns the table and the next free identity. -/
def insertTypesIC (project : Nat) : List LabelTypeRow → List String → Nat → List LabelTypeRow × Nat
  | table, [], n => (table, n)
  | table, t :: rest, n =>
    if countKey table project t = 0 then
      insertTypesIC project (table ++ [⟨n, project, t⟩]) rest (n + 1)
    else
      insertTypesIC project table rest n

/-- Bucket of `group_by_class` for `CategoryType` (the runtime-class grouping
specialized to the closed variant set, preserving order). -/
def categoryTypeNames (ts : List UnsavedLabelType) : List String :=
  ts.filterMap (fun t => match t with | .categoryType s => some s | _ => none)

/-- Bucket of `group_by_class` for `SpanType`. -/
def spanTypeNames (ts : List UnsavedLabelType) : List String :=
  ts.filterMap (fun t => match t with | .spanType s => some s | _ => none)

/-- Bucket of `group_by_class` for `RelationType`. -/
def relationTypeNames (ts : List UnsavedLabelType) : List String :=
  ts.filterMap (fun t => match t with | .relationType s => some s | _ => none)

/-- `LabeledExamples.create_data`: project every record into an unsaved
Example and bulk-insert them in one call, returning the durable Examples in
input order. -/
def createData (project : Nat) (records : List Record) (st : Store) : List ExampleRow × Store :=
  bulkCreateExamples (records.map (fun r => r.create_data project)) st

/-- `LabeledExamples.create_label_type`: derive the unsaved label types of
every record, flatten, group by concrete class, and issue one
ignore-conflicts bulk insert per class into its table. -/
def createLabelType (project : Nat) (records : List Record) (st : Store) : Store :=
  let flat := (records.map Record.create_label_type).flatten
  let ct := insertTypesIC project st.category_types (categoryTypeNames flat) st.next_id
  let sp := insertTypesIC project st.span_types (spanTypeNames flat) ct.2
  let rt := insertTypesIC project st.relation_types (relationTypeNames flat) sp.2
  { st with category_types := ct.1, span_types := sp.1, relation_types := rt.1, next_id := rt.2 }

/-- `LabeledExamples.create_mapping`: name-to-LabelType dict built from the
rows of one label-type table scoped to the project (a later row with the same
text overwrites an earlier one, as in a Python dict comprehension). -/
def createMapping (project : Nat) (table : List LabelTypeRow) : String → Option LabelTypeRow :=
  fun t => ((table.filter (fun row => row.project == project)).filter
    (fun row => row.text == t)).getLast?

/-- `LabeledExamples.extract_labels`: positionally zip records with examples
(truncating to the shorter sequence, as `zip` does), materialize each
record's durable labels, and flatten. -/
def extractLabels (user : Nat) (records : List Record) (examples : List ExampleRow)
    (mapping : String → Option LabelTypeRow) (label_class : Option LabelKind)
    (span_mapping : Option (List (Nat × SpanRow))) : Except String (List DurableLabel) :=
  match mapE (fun re => re.1.create_label user re.2 mapping label_class span_mapping)
      (records.zip examples) with
  | .error e => .error e
  | .ok lss => .ok lss.flatten

namespace CategoryExamples

/-- `CategoryExamples.create_label`: build the CategoryType mapping, extract
all labels unfiltered, bulk-insert the Category rows. -/
def create_label (project user : Nat) (records : List Record) (examples : List ExampleRow)
    (st : Store) : Except String Store :=
  match extractLabels user records examples (createMapping project st.category_types) none none with
  | .error e => .error e
  | .ok ls => .ok (insertCategories (ls.filterMap DurableLabel.asCategory) st)

/-- `LabeledExamples.create` for the category variant: phase 1 (examples),
phase 2 (label types), phase 3 (labels). -/
def create (project user : Nat) (records : List Record) (st : Store) : Except String Store :=
  let phase1 := createData project records st
  let st2 := createLabelType project records phase1.2
  create_label project user records phase1.1 st2

end CategoryExamples

namespace SpanExamples

/-- `SpanExamples.create_label`: build the SpanType mapping, extract all
labels unfiltered, bulk-insert the Span rows. -/
def create_label (project user : Nat) (records : List Record) (examples : List ExampleRow)
    (st : Store) : Except String Store :=
  match extractLabels user records examples (createMapping project st.span_types) none none with
  | .error e => .error e
  | .ok ls => .ok (insertSpans (ls.filterMap DurableLabel.asSpan) st)

/-- `LabeledExamples.create` for the span variant. -/
def create (project user : Nat) (records : List Record) (st : Store) : Except String Store :=
  let phase1 := createData project records st
  let st2 := createLabelType project records phase1.2
  create_label project user records phase1.1 st2

end SpanExamples

namespace TextExamples

/-- `TextExamples.create_label`: empty mapping, extract all labels
unfiltered, bulk-insert the TextLabel rows. -/
def create_label (project user : Nat) (records : List Record) (examples : List ExampleRow)
    (st : Store) : Except String Store :=
  match extractLabels user records examples (fun _ => none) none none with
  | .error e => .error e
  | .ok ls => .ok (insertTexts (ls.filterMap DurableLabel.asText) st)

/-- `TextExamples.create` overrides the base `create`: phase 2 (label-type
derivation) is skipped entirely; only examples and text labels are
persisted. -/
def create (project user : Nat) (records : List Record) (st : Store) : Except String Store :=
  let phase1 := createData project records st
  create_label project user records phase1.1 phase1.2

end TextExamples

namespace SpanAndCategoryExamples

/-- `SpanAndCategoryExamples.create_label`: two mappings, two filtered
extractions, two bulk inserts. -/
def create_label (project user : Nat) (records : List Record) (examples : List ExampleRow)
    (st : Store) : Except String Store :=
  let span_mapping := createMapping project st.span_types
  let category_mapping := createMapping project st.category_types
  match extractLabels user records examples span_mapping (some .spanK) none with
  | .error e => .error e
  | .ok spans =>
    match extractLabels user records examples category_mapping (some .categoryK) none with
    | .error e => .error e
    | .ok cats =>
      .ok (insertCategories (cats.filterMap DurableLabel.asCategory)
        (insertSpans (spans.filterMap DurableLabel.asSpan) st))

/-- `LabeledExamples.create` for the span+category variant. -/
def create (project user : Nat) (records : List Record) (st : Store) : Except String Store :=
  let phase1 := createData project records st
  let st2 := createLabelType project records phase1.2
  create_label project user records phase1.1 st2

end SpanAndCategoryExamples

/-- The dict `{span.uuid: span for span in Span.objects.filter(uuid__in=uuids)}`
as a lookup function: among the rows of the span table whose uuid is in the
recorded set, the last row with the requested uuid wins. -/
def uuidToSpan (spansTable : List SpanRow) (uuids : List String) (u : String) : Option SpanRow :=
  ((spansTable.filter (fun s => uuids.contains s.uuid)).filter (fun s => s.uuid == u)).getLast?

/-- The dict `{span.id: uuid_to_span[span.uuid] for span in original_spans}`:
maps each original transient span's reference key to the durable span sharing
its uuid; a uuid absent from the queried set raises (KeyError). -/
def relationIdToSpan (records : List Record) (spansTable : List SpanRow) (uuids : List String) :
    Except String (List (Nat × SpanRow)) :=
  mapE (fun s =>
      match uuidToSpan spansTable uuids s.uuid with
      | some d => .ok (s.id, d)
      | none => .error ("KeyError: " ++ s.uuid))
    (records.flatMap Record.selectSpans)

namespace RelationExamples

/-- `RelationExamples.create_label`: extract and bulk-insert the spans, build
the uuid-to-durable-Span and id-to-durable-Span mappings, then extract the
relations with `span_mapping` as extra kwarg and bulk-insert them. -/
def create_label (project user : Nat) (records : List Record) (examples : List ExampleRow)
    (st : Store) : Except String Store :=
  let span_mapping := createMapping project st.span_types
  let relation_mapping := createMapping project st.relation_types
  match extractLabels user records examples span_mapping (some .spanK) none with
  | .error e => .error e
  | .ok labels =>
    let spanRows := labels.filterMap DurableLabel.asSpan
    let uuids := spanRows.map (fun s => s.uuid)
    let st1 := insertSpans spanRows st
    match relationIdToSpan records st1.spans uuids with
    | .error e => .error e
    | .ok id_to_span =>
      match extractLabels user records examples relation_mapping (some .relationK)
          (some id_to_span) with
      | .error e => .error e
      | .ok rels => .ok (insertRelations (rels.filterMap DurableLabel.asRelation) st1)

/-- The span phase of `RelationExamples.create_label` up to the
id-to-durable-Span mapping (the same computation as the prefix of
`create_label`, named so theorems can refer to the mapping it builds). -/
def spanPhase (project user : Nat) (records : List Record) (examples : List ExampleRow)
    (st : Store) : Except String (List (Nat × SpanRow)) :=
  match extractLabels user records examples (createMapping project st.span_types)
      (some .spanK) none with
  | .error e => .error e
  | .ok labels =>
    let spanRows := labels.filterMap DurableLabel.asSpan
    relationIdToSpan records (insertSpans spanRows st).spans (spanRows.map (fun s => s.uuid))

/-- `LabeledExamples.create` for the relation variant. -/
def create (project user : Nat) (records : List Record) (st : Store) : Except String Store :=
  let phase1 := createData project records st
  let st2 := createLabelType project records phase1.2
  create_label project user records phase1.1 st2

end RelationExamples

/- Concrete instances used by witnesses and counterexamples. -/

/-- A record with one Text label (used for the cleaning analysis). -/
def cleanRec : Record := ⟨⟨"doc", "f.txt"⟩, [Label.text ("hello")], [], 3⟩

/-- A cleaning rule that filters nothing (the identity filter). -/
def identityCleaner : Cleaner := ⟨fun ls => ls, "rule"⟩

/-- An empty store with first free identity 100. -/
def emptyStore : Store := ⟨[], [], [], [], [], [], [], [], 100⟩

/-- Two records implying the same CategoryType "POS" (label-type dedup). -/
def dupTypeRecs : List Record :=
  [⟨⟨"d1", "f.txt"⟩, [Label.category ("POS")], [], 1⟩,
   ⟨⟨"d2", "f.txt"⟩, [Label.category ("POS")], [], 2⟩]

/-- One record with two spans and one relation between them (the spec's
end-to-end relation scenario). -/
def relRecs : List Record :=
  [⟨⟨"He lives in Paris", "f.jsonl"⟩,
    [Label.span ⟨1, "u1", "PER", 0, 3⟩, Label.span ⟨2, "u2", "LOC", 12, 17⟩,
     Label.relation ⟨1, 2, "lives_in"⟩], [], 1⟩]

/-- A record whose relation references span id 9, which no span carries. -/
def danglingRec : Record :=
  ⟨⟨"d", "f"⟩, [Label.span ⟨1, "u1", "PER", 0, 3⟩, Label.relation ⟨1, 9, "lives_in"⟩], [], 1⟩

/-- The batch containing `danglingRec`. -/
def danglingRecs : List Record := [danglingRec]

/-- One pre-persisted example row for the dangling-reference scenario. -/
def danglingExamples : List ExampleRow := [⟨5, 1, "doc", "f", []⟩]

/-- A store already holding SpanType "PER" and RelationType "lives_in". -/
def danglingStore : Store :=
  ⟨[], [], [⟨10, 1, "PER"⟩], [⟨11, 1, "lives_in"⟩], [], [], [], [], 20⟩

/- Helper lemmas. -/

theorem mapE_ok_forall₂ {α β : Type} {f : α → Except String β} :
    ∀ {xs : List α} {ys : List β}, mapE f xs = .ok ys →
      List.Forall₂ (fun x y => f x = .ok y) xs ys := by
  intro xs
  induction xs with
  | nil =>
    intro ys h
    simp only [mapE, Except.ok.injEq] at h
    subst h
    exact .nil
  | cons x xs ih =>
    intro ys h
    simp only [mapE] at h
    cases hfx : f x with
    | error e => rw [hfx] at h; exact absurd h (by simp)
    | ok y =>
      rw [hfx] at h
      cases hys : mapE f xs with
      | error e => rw [hys] at h; exact absurd h (by simp)
      | ok ys' =>
        rw [hys] at h
        simp only [Except.ok.injEq] at h
        subst h
        exact .cons hfx (ih hys)

theorem mapE_ok_exists {α β : Type} {f : α → Except String β} :
    ∀ {xs : List α}, (∀ x ∈ xs, ∃ y, f x = .ok y) →
      ∃ ys, mapE f xs = .ok ys ∧ List.Forall₂ (fun x y => f x = .ok y) xs ys := by
  intro xs
  induction xs with
  | nil => intro _; exact ⟨[], rfl, .nil⟩
  | cons x xs ih =>
    intro h
    obtain ⟨y, hy⟩ := h x (List.mem_cons_self x xs)
    obtain ⟨ys, hys, hall⟩ := ih (fun a ha => h a (List.mem_cons_of_mem x ha))
    refine ⟨y :: ys, ?_, .cons hy hall⟩
    simp only [mapE, hy, hys]

theorem forall₂_mem_left {α β : Type} {R : α → β → Prop} {x : α} :
    ∀ {xs : List α} {ys : List β}, List.Forall₂ R xs ys → x ∈ xs → ∃ y ∈ ys, R x y := by
  intro xs ys h
  induction h with
  | nil => intro hx; exact absurd hx (List.not_mem_nil x)
  | cons hR _ ih =>
    intro hx
    rcases List.mem_cons.mp hx with heq | hmem
    · subst heq; exact ⟨_, List.mem_cons_self .., hR⟩
    · obtain ⟨y, hy, hRy⟩ := ih hmem
      exact ⟨y, List.mem_cons_of_mem _ hy, hRy⟩

theorem forall₂_mem_right {α β : Type} {R : α → β → Prop} {y : β} :
    ∀ {xs : List α} {ys : List β}, List.Forall₂ R xs ys → y ∈ ys → ∃ x ∈ xs, R x y := by
  intro xs ys h
  induction h with
  | nil => intro hy; exact absurd hy (List.not_mem_nil y)
  | cons hR _ ih =>
    intro hy
    rcases List.mem_cons.mp hy with heq | hmem
    · subst heq; exact ⟨_, List.mem_cons_self .., hR⟩
    · obtain ⟨x, hx, hRx⟩ := ih hmem
      exact ⟨x, List.mem_cons_of_mem _ hx, hRx⟩

theorem map_eq_of_forall₂ {α β γ : Type} {g : α → γ} {h : β → γ} :
    ∀ {xs : List α} {ys : List β}, List.Forall₂ (fun x y => h y = g x) xs ys →
      ys.map h = xs.map g := by
  intro xs ys hall
  induction hall with
  | nil => rfl
  | cons hR _ ih => simpa [hR] using ih

theorem zip_truncate_left {α β : Type} :
    ∀ (xs : List α) (ys : List β), xs.zip ys = (xs.take ys.length).zip ys := by
  intro xs
  induction xs with
  | nil => intro ys; simp
  | cons x xs ih =>
    intro ys
    cases ys with
    | nil => simp [List.zip]
    | cons y ys => simp only [List.zip_cons_cons, List.length_cons, List.take_succ_cons]; rw [← ih]

theorem zip_truncate_right {α β : Type} :
    ∀ (xs : List α) (ys : List β), xs.zip ys = xs.zip (ys.take xs.length) := by
  intro xs
  induction xs with
  | nil => intro ys; simp [List.zip]
  | cons x xs ih =>
    intro ys
    cases ys with
    | nil => simp [List.zip]
    | cons y ys => simp only [List.zip_cons_cons, List.length_cons, List.take_succ_cons]; rw [← ih]

theorem flatten_length_eq_of_forall₂ {α β : Type} :
    ∀ {xss : List (List α)} {yss : List (List β)},
      List.Forall₂ (fun (xs : List α) (ys : List β) => xs.length = ys.length) xss yss →
      xss.flatten.length = yss.flatten.length := by
  intro xss yss h
  induction h with
  | nil => rfl
  | cons hR _ ih => simp [hR, ih]

theorem forall₂_filterMap_right {α β γ : Type} {P : α → γ → Prop} {h : β → Option γ} :
    ∀ {l : List α} {l' : List β},
      List.Forall₂ (fun a b => ∃ c, h b = some c ∧ P a c) l l' →
      List.Forall₂ P l (l'.filterMap h) := by
  intro l l' hall
  induction hall with
  | nil => exact .nil
  | cons hR _ ih =>
    obtain ⟨c, hc, hPc⟩ := hR
    simpa [List.filterMap_cons, hc] using List.Forall₂.cons hPc ih

theorem filter_span_eq_map (ls : List Label) :
    ls.filter (fun l => l.isKind .spanK) =
      (ls.filterMap (fun l => match l with | .span s => some s | _ => none)).map Label.span := by
  induction ls with
  | nil => rfl
  | cons l ls ih =>
    cases l <;> simpa [List.filter_cons, List.filterMap_cons, Label.isKind] using ih

theorem filter_relation_eq_map (ls : List Label) :
    ls.filter (fun l => l.isKind .relationK) =
      (ls.filterMap (fun l => match l with | .relation p => some p | _ => none)).map
        Label.relation := by
  induction ls with
  | nil => rfl
  | cons l ls ih =>
    cases l <;> simpa [List.filter_cons, List.filterMap_cons, Label.isKind] using ih

theorem assignExampleIds_length : ∀ (rows : List ExampleRow) (n : Nat),
    (assignExampleIds rows n).length = rows.length := by
  intro rows
  induction rows with
  | nil => intro n; rfl
  | cons r rows ih => intro n; simp [assignExampleIds, ih]

theorem assignTextIds_length : ∀ (rows : List TextRow) (n : Nat),
    (assignTextIds rows n).length = rows.length := by
  intro rows
  induction rows with
  | nil => intro n; rfl
  | cons r rows ih => intro n; simp [assignTextIds, ih]

theorem createData_fst_length (project : Nat) (records : List Record) (st : Store) :
    (createData project records st).1.length = records.length := by
  simp [createData, bulkCreateExamples, assignExampleIds_length]

theorem createData_snd_frame (project : Nat) (records : List Record) (st : Store) :
    (createData project records st).2.category_types = st.category_types ∧
    (createData project records st).2.span_types = st.span_types ∧
    (createData project records st).2.relation_types = st.relation_types ∧
    (createData project records st).2.spans = st.spans ∧
    (createData project records st).2.categories = st.categories ∧
    (createData project records st).2.texts = st.texts ∧
    (createData project records st).2.relations = st.relations :=
  ⟨rfl, rfl, rfl, rfl, rfl, rfl, rfl⟩

theorem createLabelType_frame (project : Nat) (records : List Record) (st : Store) :
    (createLabelType project records st).examples = st.examples ∧
    (createLabelType project records st).spans = st.spans ∧
    (createLabelType project records st).categories = st.categories ∧
    (createLabelType project records st).texts = st.texts ∧
    (createLabelType project records st).relations = st.relations :=
  ⟨rfl, rfl, rfl, rfl, rfl⟩

theorem insertSpans_frame (rows : List SpanRow) (st : Store) :
    (insertSpans rows st).examples = st.examples ∧
    (insertSpans rows st).category_types = st.category_types ∧
    (insertSpans rows st).span_types = st.span_types ∧
    (insertSpans rows st).relation_types = st.relation_types ∧
    (insertSpans rows st).categories = st.categories ∧
    (insertSpans rows st).texts = st.texts ∧
    (insertSpans rows st).relations = st.relations :=
  ⟨rfl, rfl, rfl, rfl, rfl, rfl, rfl⟩

theorem insertRelations_frame (rows : List RelationRow) (st : Store) :
    (insertRelations rows st).examples = st.examples ∧
    (insertRelations rows st).category_types = st.category_types ∧
    (insertRelations rows st).span_types = st.span_types ∧
    (insertRelations rows st).relation_types = st.relation_types ∧
    (insertRelations rows st).categories = st.categories ∧
    (insertRelations rows st).texts = st.texts ∧
    (insertRelations rows st).spans = st.spans :=
  ⟨rfl, rfl, rfl, rfl, rfl, rfl, rfl⟩

theorem assignSpanIds_forall₂ {α : Type} {P Q : α → SpanRow → Prop}
    (hPQ : ∀ a row n, P a row → Q a { row with id := n }) :
    ∀ {l : List α} {rows : List SpanRow} (n : Nat), List.Forall₂ P l rows →
      List.Forall₂ Q l (assignSpanIds rows n) := by
  intro l rows
  intro n h
  induction h generalizing n with
  | nil => exact .nil
  | cons hR hall ih => exact .cons (hPQ _ _ _ hR) (ih (n + 1))

theorem assignRelationIds_forall₂ {α : Type} {P Q : α → RelationRow → Prop}
    (hPQ : ∀ a row n, P a row → Q a { row with id := n }) :
    ∀ {l : List α} {rows : List RelationRow} (n : Nat), List.Forall₂ P l rows →
      List.Forall₂ Q l (assignRelationIds rows n) := by
  intro l rows
  intro n h
  induction h generalizing n with
  | nil => exact .nil
  | cons hR hall ih => exact .cons (hPQ _ _ _ hR) (ih (n + 1))

/-- Characterization of a successful filtered extraction: the produced durable
labels align one-to-one, in order, with the flattened class-filtered labels of
the records, each produced by that label's `create` against some example. -/
theorem extractLabels_filtered_forall₂ {user : Nat} {records : List Record}
    {examples : List ExampleRow} {mapping : String → Option LabelTypeRow} {k : LabelKind}
    {span_mapping : Option (List (Nat × SpanRow))} {out : List DurableLabel}
    (hlen : records.length = examples.length)
    (hok : extractLabels user records examples mapping (some k) span_mapping = .ok out) :
    List.Forall₂ (fun (l : Label) (dl : DurableLabel) =>
        ∃ ex, l.create user ex mapping span_mapping = .ok dl)
      (records.flatMap (fun r => r.label.filter (fun l => l.isKind k))) out := by
  unfold extractLabels at hok
  cases hmap : mapE (fun re => re.1.create_label user re.2 mapping (some k) span_mapping)
      (records.zip examples) with
  | error e => rw [hmap] at hok; exact absurd hok (by simp)
  | ok lss =>
    rw [hmap] at hok
    simp only [Except.ok.injEq] at hok
    subst hok
    have hzip := mapE_ok_forall₂ hmap
    have hzip' : List.Forall₂
        (fun (re : Record × ExampleRow) (ls : List DurableLabel) =>
          List.Forall₂ (fun (l : Label) (dl : DurableLabel) =>
            ∃ ex, l.create user ex mapping span_mapping = .ok dl)
            (re.1.label.filter (fun l => l.isKind k)) ls)
        (records.zip examples) lss := by
      refine hzip.imp ?_
      intro re ls h
      simp only [Record.create_label] at h
      exact (mapE_ok_forall₂ h).imp (fun l dl hc => ⟨re.2, hc⟩)
    have hmapped : List.Forall₂
        (List.Forall₂ (fun (l : Label) (dl : DurableLabel) =>
          ∃ ex, l.create user ex mapping span_mapping = .ok dl))
        ((records.zip examples).map (fun re => re.1.label.filter (fun l => l.isKind k))) lss :=
      List.forall₂_map_left_iff.mpr hzip'
    have hflat := List.rel_flatten hmapped
    have hleft : ((records.zip examples).map
        (fun re => re.1.label.filter (fun l => l.isKind k))).flatten =
        records.flatMap (fun r => r.label.filter (fun l => l.isKind k)) := by
      have h1 : (records.zip examples).map
          (fun re => re.1.label.filter (fun l => l.isKind k)) =
          ((records.zip examples).map Prod.fst).map
            (fun r => r.label.filter (fun l => l.isKind k)) := by
        rw [List.map_map]
        rfl
      rw [h1, List.map_fst_zip records examples (le_of_eq hlen), List.flatMap_def]
    rwa [hleft] at hflat

theorem dictGet_mem {m : List (Nat × SpanRow)} {k : Nat} {v : SpanRow} :
    dictGet m k = some v → (k, v) ∈ m := by
  induction m with
  | nil => intro h; exact absurd h (by simp [dictGet])
  | cons kv rest ih =>
    intro h
    obtain ⟨k', v'⟩ := kv
    simp only [dictGet] at h
    cases hrest : dictGet rest k with
    | some w =>
      rw [hrest] at h
      cases h
      exact List.mem_cons_of_mem _ (ih hrest)
    | none =>
      rw [hrest] at h
      by_cases hk : k' = k
      · rw [if_pos hk] at h
        cases h
        subst hk
        exact List.mem_cons_self ..
      · rw [if_neg hk] at h
        exact absurd h (by simp)

theorem uuidToSpan_spec {tbl : List SpanRow} {uuids : List String} {u : String} {d : SpanRow}
    (h : uuidToSpan tbl uuids u = some d) : d ∈ tbl ∧ d.uuid = u := by
  unfold uuidToSpan at h
  have hmem := List.mem_of_mem_getLast? h
  have h1 := List.mem_filter.mp hmem
  have h2 := List.mem_filter.mp h1.1
  exact ⟨h2.1, by simpa using h1.2⟩

theorem relationIdToSpan_spec {records : List Record} {tbl : List SpanRow}
    {uuids : List String} {m : List (Nat × SpanRow)}
    (h : relationIdToSpan records tbl uuids = .ok m) :
    List.Forall₂ (fun (s : SpanPayload) (kv : Nat × SpanRow) =>
        kv.1 = s.id ∧ kv.2 ∈ tbl ∧ kv.2.uuid = s.uuid)
      (records.flatMap Record.selectSpans) m := by
  refine (mapE_ok_forall₂ h).imp ?_
  intro s kv hs
  cases hu : uuidToSpan tbl uuids s.uuid with
  | none => rw [hu] at hs; exact absurd hs (by simp)
  | some d =>
    rw [hu] at hs
    simp only [Except.ok.injEq] at hs
    subst hs
    obtain ⟨hmem, huuid⟩ := uuidToSpan_spec hu
    exact ⟨rfl, hmem, huuid⟩

theorem span_extraction_payload {user : Nat} {records : List Record}
    {examples : List ExampleRow} {mapping : String → Option LabelTypeRow}
    {out : List DurableLabel}
    (hlen : records.length = examples.length)
    (hok : extractLabels user records examples mapping (some .spanK) none = .ok out) :
    List.Forall₂ (fun (s : SpanPayload) (row : SpanRow) =>
        row.uuid = s.uuid ∧ row.start_offset = s.start_offset ∧
        row.end_offset = s.end_offset ∧
        ∃ tt, mapping s.label = some tt ∧ row.label = tt.id)
      (records.flatMap Record.selectSpans) (out.filterMap DurableLabel.asSpan) := by
  have h := extractLabels_filtered_forall₂ hlen hok
  have hleft : records.flatMap (fun r => r.label.filter (fun l => l.isKind .spanK)) =
      (records.flatMap Record.selectSpans).map Label.span := by
    simp only [filter_span_eq_map]
    rw [List.map_flatMap]
    rfl
  rw [hleft] at h
  have h2 := List.forall₂_map_left_iff.mp h
  refine forall₂_filterMap_right (h2.imp ?_)
  intro s dl hex
  obtain ⟨ex, hcr⟩ := hex
  simp only [Label.create] at hcr
  cases hm : mapping s.label with
  | none => rw [hm] at hcr; exact absurd hcr (by simp)
  | some tt =>
    rw [hm] at hcr
    simp only [Except.ok.injEq] at hcr
    subst hcr
    exact ⟨_, rfl, rfl, rfl, rfl, tt, rfl, rfl⟩

theorem relation_extraction_payload {user : Nat} {records : List Record}
    {examples : List ExampleRow} {mapping : String → Option LabelTypeRow}
    {m : List (Nat × SpanRow)} {out : List DurableLabel}
    (hlen : records.length = examples.length)
    (hok : extractLabels user records examples mapping (some .relationK) (some m) = .ok out) :
    List.Forall₂ (fun (rp : RelationPayload) (row : RelationRow) =>
        (∃ tt, mapping rp.type = some tt ∧ row.type = tt.id) ∧
        (∃ dA, dictGet m rp.from_id = some dA ∧ row.from_id = dA.id) ∧
        (∃ dB, dictGet m rp.to_id = some dB ∧ row.to_id = dB.id))
      (records.flatMap Record.selectRelations) (out.filterMap DurableLabel.asRelation) := by
  have h := extractLabels_filtered_forall₂ hlen hok
  have hleft : records.flatMap (fun r => r.label.filter (fun l => l.isKind .relationK)) =
      (records.flatMap Record.selectRelations).map Label.relation := by
    simp only [filter_relation_eq_map]
    rw [List.map_flatMap]
    rfl
  rw [hleft] at h
  have h2 := List.forall₂_map_left_iff.mp h
  refine forall₂_filterMap_right (h2.imp ?_)
  intro rp dl hex
  obtain ⟨ex, hcr⟩ := hex
  simp only [Label.create] at hcr
  cases hm1 : mapping rp.type with
  | none => rw [hm1] at hcr; exact absurd hcr (by simp)
  | some tt =>
    rw [hm1] at hcr
    cases hdA : dictGet m rp.from_id with
    | none => rw [hdA] at hcr; exact absurd hcr (by simp)
    | some dA =>
      rw [hdA] at hcr
      cases hdB : dictGet m rp.to_id with
      | none => rw [hdB] at hcr; exact absurd hcr (by simp)
      | some dB =>
        rw [hdB] at hcr
        simp only [Except.ok.injEq] at hcr
        subst hcr
        exact ⟨_, rfl, ⟨tt, rfl, rfl⟩, ⟨dA, rfl, rfl⟩, ⟨dB, rfl, rfl⟩⟩

theorem relation_create_decomposed {project user : Nat} {records : List Record} {st st' : Store}
    (hok : RelationExamples.create project user records st = .ok st') :
    ∃ (spanLabels : List DurableLabel) (idm : List (Nat × SpanRow))
      (rels : List DurableLabel),
      extractLabels user records (createData project records st).1
        (createMapping project
          (createLabelType project records (createData project records st).2).span_types)
        (some .spanK) none = .ok spanLabels ∧
      relationIdToSpan records
        (insertSpans (spanLabels.filterMap DurableLabel.asSpan)
          (createLabelType project records (createData project records st).2)).spans
        ((spanLabels.filterMap DurableLabel.asSpan).map (fun s => s.uuid)) = .ok idm ∧
      extractLabels user records (createData project records st).1
        (createMapping project
          (createLabelType project records (createData project records st).2).relation_types)
        (some .relationK) (some idm) = .ok rels ∧
      st' = insertRelations (rels.filterMap DurableLabel.asRelation)
        (insertSpans (spanLabels.filterMap DurableLabel.asSpan)
          (createLabelType project records (createData project records st).2)) := by
  simp only [RelationExamples.create, RelationExamples.create_label] at hok
  split at hok
  · exact absurd hok (by simp)
  next spanLabels heq1 =>
    split at hok
    · exact absurd hok (by simp)
    next idm heq2 =>
      split at hok
      · exact absurd hok (by simp)
      next rels heq3 =>
        simp only [Except.ok.injEq] at hok
        exact ⟨spanLabels, idm, rels, heq1, heq2, heq3, hok.symm⟩

theorem dictGet_resolves {tsp : List SpanPayload} {idm : List (Nat × SpanRow)}
    {tbl : List SpanRow}
    (hchar : List.Forall₂ (fun (s : SpanPayload) (kv : Nat × SpanRow) =>
        kv.1 = s.id ∧ kv.2 ∈ tbl ∧ kv.2.uuid = s.uuid) tsp idm)
    (hnodup : (tsp.map SpanPayload.id).Nodup)
    {k : Nat} {d : SpanRow} (hget : dictGet idm k = some d)
    {sA : SpanPayload} (hsA : sA ∈ tsp) (hid : sA.id = k) :
    d ∈ tbl ∧ d.uuid = sA.uuid := by
  have hmem := dictGet_mem hget
  obtain ⟨s', hs', hk, htbl, huuid⟩ := forall₂_mem_right hchar hmem
  have heq : s' = sA :=
    List.inj_on_of_nodup_map hnodup hs' hsA (by rw [← hk, hid])
  subst heq
  exact ⟨htbl, huuid⟩

theorem countKey_append_single (table : List LabelTypeRow) (project n : Nat) (t' t : String) :
    countKey (table ++ [⟨n, project, t'⟩]) project t =
      countKey table project t + if t' = t then 1 else 0 := by
  unfold countKey
  rw [List.filter_append, List.length_append]
  by_cases h : t' = t
  · subst h; simp
  · simp [h]

theorem insertTypesIC_countKey (project : Nat) :
    ∀ (names : List String) (table : List LabelTypeRow) (n : Nat) (t : String),
      countKey (insertTypesIC project table names n).1 project t =
        if countKey table project t = 0 ∧ t ∈ names then 1 else countKey table project t := by
  intro names
  induction names with
  | nil => intro table n t; simp [insertTypesIC]
  | cons t' rest ih =>
    intro table n t
    simp only [insertTypesIC]
    by_cases h0 : countKey table project t' = 0
    · rw [if_pos h0, ih]
      by_cases ht : t' = t
      · subst ht
        rw [countKey_append_single]
        simp [h0]
      · rw [countKey_append_single, if_neg ht]
        simp only [Nat.add_zero]
        by_cases hm : t ∈ rest
        · simp [hm, List.mem_cons, Ne.symm ht]
        · simp [hm, List.mem_cons, Ne.symm ht]
    · rw [if_neg h0, ih]
      by_cases ht : t' = t
      · subst ht
        simp [h0]
      · by_cases hm : t ∈ rest
        · simp [hm, List.mem_cons, Ne.symm ht]
        · simp [hm, List.mem_cons, Ne.symm ht]

theorem insertTypesIC_noop (project : Nat) :
    ∀ (names : List String) (table : List LabelTypeRow) (n : Nat),
      (∀ t ∈ names, countKey table project t ≠ 0) →
      insertTypesIC project table names n = (table, n) := by
  intro names
  induction names with
  | nil => intro table n _; rfl
  | cons t' rest ih =>
    intro table n h
    simp only [insertTypesIC]
    rw [if_neg (h t' (List.mem_cons_self ..))]
    exact ih table n (fun t ht => h t (List.mem_cons_of_mem _ ht))

theorem insertTypesIC_key_present (project : Nat) (names : List String)
    (table : List LabelTypeRow) (n : Nat) (t : String) (ht : t ∈ names) :
    countKey (insertTypesIC project table names n).1 project t ≠ 0 := by
  rw [insertTypesIC_countKey]
  by_cases h0 : countKey table project t = 0
  · simp [h0, ht]
  · simp only [h0, false_and, if_false]
    exact h0

theorem create_type_filter_forall₂ (ls : List Label) :
    List.Forall₂ (fun (l : Label) (t : UnsavedLabelType) => l.create_type = some t)
      (ls.filter (fun l => l.has_name && !(l.name == ""))) (ls.filterMap Label.create_type) := by
  induction ls with
  | nil => exact .nil
  | cons l ls ih =>
    cases l with
    | category c =>
      by_cases hc : c = ""
      · subst hc
        simpa [List.filter_cons, List.filterMap_cons, Label.has_name, Label.name,
          Label.create_type] using ih
      · simp only [List.filter_cons, List.filterMap_cons, Label.has_name, Label.name,
          Label.create_type, if_neg hc]
        have : (true && !(c == "")) = true := by simp [hc]
        rw [this]
        exact .cons (by simp [Label.create_type, hc]) ih
    | span s =>
      by_cases hc : s.label = ""
      · simpa [List.filter_cons, List.filterMap_cons, Label.has_name, Label.name,
          Label.create_type, hc] using ih
      · simp only [List.filter_cons, List.filterMap_cons, Label.has_name, Label.name,
          Label.create_type, if_neg hc]
        have : (true && !(s.label == "")) = true := by simp [hc]
        rw [this]
        exact .cons (by simp [Label.create_type, hc]) ih
    | text t =>
      simpa [List.filter_cons, List.filterMap_cons, Label.has_name, Label.name,
        Label.create_type] using ih
    | relation p =>
      by_cases hc : p.type = ""
      · simpa [List.filter_cons, List.filterMap_cons, Label.has_name, Label.name,
          Label.create_type, hc] using ih
      · simp only [List.filter_cons, List.filterMap_cons, Label.has_name, Label.name,
          Label.create_type, if_neg hc]
        have : (true && !(p.type == "")) = true := by simp [hc]
        rw [this]
        exact .cons (by simp [Label.create_type, hc]) ih

/- Claim theorems. -/

/-- C3: `LabeledExamples.create_data` returns exactly one durable Example per
input Record, in the same order: the returned list has the records' length,
and positionally the i-th Example is the one projected from the i-th Record's
data and meta (so the positional zip of `extract_labels` pairs every record
with its own Example). -/
theorem create_data_same_order (project : Nat) (records : List Record) (st : Store) :
    (createData project records st).1.length = records.length ∧
    List.Forall₂ (fun (r : Record) (e : ExampleRow) =>
        e.project = project ∧ e.text = r.data.text ∧ e.filename = r.data.filename ∧
        e.meta = r.meta)
      records (createData project records st).1 := by
  refine ⟨createData_fst_length project records st, ?_⟩
  show List.Forall₂ _ records
    (assignExampleIds (records.map (fun r => r.create_data project)) st.next_id)
  generalize st.next_id = n
  induction records generalizing n with
  | nil => exact .nil
  | cons r rs ih => exact .cons ⟨rfl, rfl, rfl, rfl⟩ (ih (n + 1))

/-- C9: `extract_labels` does not enforce the equal-length invariant: the
positional zip silently truncates to the shorter of the two sequences, so the
result (including success/failure) is exactly that of the truncated input —
labels of trailing unmatched records, or trailing unmatched examples, are
silently ignored rather than raising an error. -/
theorem extract_labels_truncates (user : Nat) (records : List Record)
    (examples : List ExampleRow) (mapping : String → Option LabelTypeRow)
    (label_class : Option LabelKind) (span_mapping : Option (List (Nat × SpanRow))) :
    extractLabels user records examples mapping label_class span_mapping =
      extractLabels user (records.take examples.length) examples mapping label_class
        span_mapping ∧
    extractLabels user records examples mapping label_class span_mapping =
      extractLabels user records (examples.take records.length) mapping label_class
        span_mapping := by
  constructor
  · unfold extractLabels
    rw [zip_truncate_left records examples]
  · unfold extractLabels
    rw [zip_truncate_right records examples]

/-- C10: `Record.create_label` forwards the extra `span_mapping` kwarg to each
label's `create` only when a `label_class` filter is given; on the unfiltered
path (`label_class = none`) the kwargs are silently ignored and every label is
materialized with only `(user, example, mapping)`. -/
theorem create_label_kwargs_only_when_filtered (r : Record) (user : Nat) (ex : ExampleRow)
    (mapping : String → Option LabelTypeRow) :
    (∀ span_mapping, r.create_label user ex mapping none span_mapping =
        mapE (fun l => l.create user ex mapping none) r.label) ∧
    (∀ sm1 sm2, r.create_label user ex mapping none sm1 =
        r.create_label user ex mapping none sm2) ∧
    (∀ k span_mapping, r.create_label user ex mapping (some k) span_mapping =
        mapE (fun l => l.create user ex mapping span_mapping)
          (r.label.filter (fun l => l.isKind k))) :=
  ⟨fun _ => rfl, fun _ _ => rfl, fun _ _ => rfl⟩

/-- C8: `Record.create_label_type` returns exactly one unsaved LabelType per
label with a (present and) non-empty name, in order — each entry is the type
that label materializes — and omits every label that materializes none (Text
labels, empty names); no `None` entries survive the filter. -/
theorem create_label_type_one_per_named (r : Record) :
    List.Forall₂ (fun (l : Label) (t : UnsavedLabelType) => l.create_type = some t)
      (r.label.filter (fun l => l.has_name && !(l.name == ""))) r.create_label_type := by
  unfold Record.create_label_type
  rw [List.filterMap_map]
  exact create_type_filter_forall₂ r.label

theorem createLabelType_noop (project : Nat) (records : List Record) (st : Store)
    (hc : ∀ t ∈ categoryTypeNames ((records.map Record.create_label_type).flatten),
      countKey st.category_types project t ≠ 0)
    (hs : ∀ t ∈ spanTypeNames ((records.map Record.create_label_type).flatten),
      countKey st.span_types project t ≠ 0)
    (hr : ∀ t ∈ relationTypeNames ((records.map Record.create_label_type).flatten),
      countKey st.relation_types project t ≠ 0) :
    createLabelType project records st = st := by
  simp only [createLabelType]
  rw [insertTypesIC_noop project _ _ _ hc, insertTypesIC_noop project _ _ _ hs,
    insertTypesIC_noop project _ _ _ hr]

/-- C4: label-type insertion is idempotent on the store: starting from a
store with at most one row per natural key, `create_label_type` leaves at
most one row per key; a key implied by the batch ends with exactly one row
(whether it was implied twice by the same batch or already present); and
re-running the same batch is a complete no-op on the store (and raises no
error — the operation is total). -/
theorem label_type_insert_idempotent (project : Nat) (records : List Record) (st : Store)
    (t : String)
    (hc : countKey st.category_types project t ≤ 1)
    (hs : countKey st.span_types project t ≤ 1)
    (hr : countKey st.relation_types project t ≤ 1) :
    (countKey (createLabelType project records st).category_types project t ≤ 1 ∧
     countKey (createLabelType project records st).span_types project t ≤ 1 ∧
     countKey (createLabelType project records st).relation_types project t ≤ 1) ∧
    (t ∈ categoryTypeNames ((records.map Record.create_label_type).flatten) →
      countKey (createLabelType project records st).category_types project t = 1) ∧
    (t ∈ spanTypeNames ((records.map Record.create_label_type).flatten) →
      countKey (createLabelType project records st).span_types project t = 1) ∧
    (t ∈ relationTypeNames ((records.map Record.create_label_type).flatten) →
      countKey (createLabelType project records st).relation_types project t = 1) ∧
    createLabelType project records (createLabelType project records st) =
      createLabelType project records st := by
  have leOne : ∀ (table : List LabelTypeRow) (names : List String) (n : Nat),
      countKey table project t ≤ 1 →
      countKey (insertTypesIC project table names n).1 project t ≤ 1 := by
    intro table names n hle
    rw [insertTypesIC_countKey]
    by_cases h : countKey table project t = 0 ∧ t ∈ names
    · simp [h]
    · simpa [h] using hle
  have exactOne : ∀ (table : List LabelTypeRow) (names : List String) (n : Nat),
      countKey table project t ≤ 1 → t ∈ names →
      countKey (insertTypesIC project table names n).1 project t = 1 := by
    intro table names n hle hmem
    rw [insertTypesIC_countKey]
    by_cases h0 : countKey table project t = 0
    · simp [h0, hmem]
    · simp only [h0, false_and, if_false]
      exact Nat.le_antisymm hle (Nat.one_le_iff_ne_zero.mpr h0)
  refine ⟨⟨leOne _ _ _ hc, leOne _ _ _ hs, leOne _ _ _ hr⟩,
    fun hm => exactOne _ _ _ hc hm, fun hm => exactOne _ _ _ hs hm,
    fun hm => exactOne _ _ _ hr hm, ?_⟩
  exact createLabelType_noop project records _
    (fun t' ht' => insertTypesIC_key_present project _ _ _ t' ht')
    (fun t' ht' => insertTypesIC_key_present project _ _ _ t' ht')
    (fun t' ht' => insertTypesIC_key_present project _ _ _ t' ht')

/-- C4 witness: the idempotence theorem applied to a batch of two records
that both imply CategoryType "POS", against the empty store. -/
theorem label_type_insert_idempotent_witness :
    countKey emptyStore.category_types 1 ("POS") ≤ 1 ∧
    ((countKey (createLabelType 1 dupTypeRecs emptyStore).category_types 1 ("POS") ≤ 1 ∧
      countKey (createLabelType 1 dupTypeRecs emptyStore).span_types 1 ("POS") ≤ 1 ∧
      countKey (createLabelType 1 dupTypeRecs emptyStore).relation_types 1 ("POS") ≤ 1) ∧
     (("POS") ∈ categoryTypeNames ((dupTypeRecs.map Record.create_label_type).flatten) →
      countKey (createLabelType 1 dupTypeRecs emptyStore).category_types 1 ("POS") = 1) ∧
     (("POS") ∈ spanTypeNames ((dupTypeRecs.map Record.create_label_type).flatten) →
      countKey (createLabelType 1 dupTypeRecs emptyStore).span_types 1 ("POS") = 1) ∧
     (("POS") ∈ relationTypeNames ((dupTypeRecs.map Record.create_label_type).flatten) →
      countKey (createLabelType 1 dupTypeRecs emptyStore).relation_types 1 ("POS") = 1) ∧
     createLabelType 1 dupTypeRecs (createLabelType 1 dupTypeRecs emptyStore) =
       createLabelType 1 dupTypeRecs emptyStore) :=
  ⟨by decide,
    label_type_insert_idempotent 1 dupTypeRecs emptyStore ("POS")
      (by decide) (by decide) (by decide)⟩

theorem filterMap_asText_length :
    ∀ {ls : List DurableLabel}, (∀ dl ∈ ls, ∃ trow, dl = .text trow) →
      (ls.filterMap DurableLabel.asText).length = ls.length := by
  intro ls
  induction ls with
  | nil => intro _; rfl
  | cons dl ls ih =>
    intro h
    obtain ⟨trow, htr⟩ := h dl (List.mem_cons_self ..)
    subst htr
    simp only [List.filterMap_cons, DurableLabel.asText, List.length_cons]
    rw [ih (fun x hx => h x (List.mem_cons_of_mem _ hx))]

theorem zip_map_fst_flatten (records : List Record) (examples : List ExampleRow)
    (hlen : records.length = examples.length) (g : Record → List Label) :
    ((records.zip examples).map (fun re => g re.1)).flatten = records.flatMap g := by
  have h1 : (records.zip examples).map (fun re => g re.1) =
      ((records.zip examples).map Prod.fst).map g := by
    rw [List.map_map]
    rfl
  rw [h1, List.map_fst_zip records examples (le_of_eq hlen), List.flatMap_def]

/-- C7: committing a batch through the Text variant touches no label-type
table (phase 2 is skipped entirely): for a batch containing only Text
labels, the commit succeeds, all three LabelType tables and the other label
tables are unchanged, one Example per record is persisted, and one TextLabel
row per (text) label is persisted. -/
theorem text_create_skips_label_types (project user : Nat) (records : List Record) (st : Store)
    (htext : ∀ r ∈ records, ∀ l ∈ r.label, l.isKind .textK = true) :
    ∃ st', TextExamples.create project user records st = .ok st' ∧
      st'.category_types = st.category_types ∧
      st'.span_types = st.span_types ∧
      st'.relation_types = st.relation_types ∧
      st'.spans = st.spans ∧
      st'.categories = st.categories ∧
      st'.relations = st.relations ∧
      st'.examples.length = st.examples.length + records.length ∧
      st'.texts.length = st.texts.length + (records.flatMap Record.label).length := by
  have hlen : records.length = (createData project records st).1.length :=
    (createData_fst_length project records st).symm
  have houter : ∀ re ∈ records.zip (createData project records st).1,
      ∃ ys, re.1.create_label user re.2 (fun _ => none) none none = .ok ys := by
    intro re hre
    have hrec : re.1 ∈ records := (List.of_mem_zip hre).1
    have hinner : ∀ l ∈ re.1.label, ∃ y, l.create user re.2 (fun _ => none) none = .ok y := by
      intro l hl
      have ht := htext re.1 hrec l hl
      cases l with
      | category c => exact absurd ht (by simp [Label.isKind])
      | span s => exact absurd ht (by simp [Label.isKind])
      | relation p => exact absurd ht (by simp [Label.isKind])
      | text t => exact ⟨.text ⟨0, re.2.id, user, t⟩, rfl⟩
    obtain ⟨ys, hys, _⟩ := mapE_ok_exists hinner
    exact ⟨ys, hys⟩
  obtain ⟨lss, hmap, hallzip⟩ := mapE_ok_exists houter
  refine ⟨insertTexts (lss.flatten.filterMap DurableLabel.asText)
      (createData project records st).2, ?_, rfl, rfl, rfl, rfl, rfl, rfl, ?_, ?_⟩
  · show TextExamples.create_label project user records (createData project records st).1
      (createData project records st).2 = _
    unfold TextExamples.create_label extractLabels
    rw [hmap]
  · show ((createData project records st).2.examples).length = _
    show (st.examples ++ assignExampleIds (records.map (fun r => r.create_data project))
      st.next_id).length = _
    rw [List.length_append, assignExampleIds_length, List.length_map]
  · show ((createData project records st).2.texts ++ assignTextIds
      (lss.flatten.filterMap DurableLabel.asText) _).length = _
    rw [List.length_append, assignTextIds_length]
    have htextrows : ∀ dl ∈ lss.flatten, ∃ trow, dl = .text trow := by
      intro dl hdl
      obtain ⟨ls, hls, hdlin⟩ := List.mem_flatten.mp hdl
      obtain ⟨re, hre, hok⟩ := forall₂_mem_right hallzip hls
      obtain ⟨l, hl, hcr⟩ := forall₂_mem_right (mapE_ok_forall₂ (by
        simpa [Record.create_label] using hok)) hdlin
      have ht := htext re.1 (List.of_mem_zip hre).1 l hl
      cases l with
      | category c => exact absurd ht (by simp [Label.isKind])
      | span s => exact absurd ht (by simp [Label.isKind])
      | relation p => exact absurd ht (by simp [Label.isKind])
      | text t =>
        refine ⟨⟨0, re.2.id, user, t⟩, ?_⟩
        have : Label.create (.text t) user re.2 (fun _ => none) none =
            .ok (.text ⟨0, re.2.id, user, t⟩) := rfl
        rw [this] at hcr
        exact (Except.ok.injEq .. ▸ hcr.symm)
    rw [filterMap_asText_length htextrows]
    have hlenzip : List.Forall₂ (fun (xs : List Label) (ys : List DurableLabel) =>
        xs.length = ys.length)
        ((records.zip (createData project records st).1).map (fun re => re.1.label)) lss := by
      refine List.forall₂_map_left_iff.mpr (hallzip.imp ?_)
      intro re ys hok
      exact (mapE_ok_forall₂ (by simpa [Record.create_label] using hok)).length_eq
    have := flatten_length_eq_of_forall₂ hlenzip
    rw [← this, zip_map_fst_flatten records _ hlen Record.label]
    rfl

/-- C7 witness: the frame theorem applied to a concrete batch of one record
carrying one Text label. -/
theorem text_create_skips_label_types_witness :
    (∀ r ∈ [(⟨⟨"doc", "g.txt"⟩, [Label.text ("nice")], [], 2⟩ : Record)],
      ∀ l ∈ r.label, l.isKind .textK = true) ∧
    (∃ st', TextExamples.create 1 7
        [(⟨⟨"doc", "g.txt"⟩, [Label.text ("nice")], [], 2⟩ : Record)] emptyStore = .ok st' ∧
      st'.category_types = emptyStore.category_types ∧
      st'.span_types = emptyStore.span_types ∧
      st'.relation_types = emptyStore.relation_types ∧
      st'.spans = emptyStore.spans ∧
      st'.categories = emptyStore.categories ∧
      st'.relations = emptyStore.relations ∧
      st'.examples.length = emptyStore.examples.length +
        [(⟨⟨"doc", "g.txt"⟩, [Label.text ("nice")], [], 2⟩ : Record)].length ∧
      st'.texts.length = emptyStore.texts.length +
        ([(⟨⟨"doc", "g.txt"⟩, [Label.text ("nice")], [], 2⟩ : Record)].flatMap
          Record.label).length) :=
  ⟨by decide, text_create_skips_label_types 1 7 _ emptyStore (by decide)⟩

/-- C6 counterexample: on a record whose only label is a Text label and a
cleaner that removes nothing, `Record.clean` returns a warning although the
label count did not decrease (it is unchanged), because the source compares
the cleaned list's length against the `label` property (named labels only),
not against the raw label list. -/
theorem clean_warns_although_count_unchanged :
    (cleanRec.clean identityCleaner).2 = some ⟨"f.txt", 3, "rule"⟩ ∧
    (identityCleaner.clean cleanRec.label).length = cleanRec.label.length := by
  constructor
  · rfl
  · rfl

/-- C6 amended: `Record.clean` replaces the record's label list with the
cleaner's output (so, when the cleaner returns a sublist, the label count
never increases), and returns a parse-warning value carrying filename, line
number and the rule's message if and only if the cleaned list's length
differs from the number of *named* labels before cleaning (Text and
unnamed labels are not counted in that baseline) — not iff the total label
count strictly decreased. -/
theorem clean_replaces_and_warns (r : Record) (cleaner : Cleaner) :
    (r.clean cleaner).1.label = cleaner.clean r.label ∧
    ((r.clean cleaner).2.isSome = true ↔
      (cleaner.clean r.label).length ≠ r.named_label.length) ∧
    (∀ fpe, (r.clean cleaner).2 = some fpe →
      fpe = ⟨r.data.filename, r.line_num, cleaner.message⟩) ∧
    ((cleaner.clean r.label).Sublist r.label →
      (r.clean cleaner).1.label.length ≤ r.label.length) := by
  unfold Record.clean
  refine ⟨rfl, ?_, ?_, ?_⟩
  · by_cases h : (cleaner.clean r.label).length = r.named_label.length
    · simp [h]
    · simp [h]
  · intro fpe hf
    by_cases h : (cleaner.clean r.label).length = r.named_label.length
    · simp [h] at hf
    · simp only [if_pos h, Option.some.injEq] at hf
      exact hf.symm
  · intro hsub
    simpa using hsub.length_le

/-- C6 amended, instantiated: the characterization applied at a concrete
record and a concrete (identity) cleaner. -/
theorem clean_replaces_and_warns_witness :
    (cleanRec.clean identityCleaner).1.label = identityCleaner.clean cleanRec.label ∧
    ((cleanRec.clean identityCleaner).2.isSome = true ↔
      (identityCleaner.clean cleanRec.label).length ≠ cleanRec.named_label.length) ∧
    (∀ fpe, (cleanRec.clean identityCleaner).2 = some fpe →
      fpe = ⟨cleanRec.data.filename, cleanRec.line_num, identityCleaner.message⟩) ∧
    ((identityCleaner.clean cleanRec.label).Sublist cleanRec.label →
      (cleanRec.clean identityCleaner).1.label.length ≤ cleanRec.label.length) :=
  clean_replaces_and_warns cleanRec identityCleaner

/-- C5: for every successful relation-variant commit, the durable Spans
appended to the store align one-to-one (in order) with the batch's transient
spans, each preserving its uuid verbatim; and when no pre-existing span row
carries one of the batch's uuids, filtering the span table by the set of
just-inserted uuids recovers exactly the new rows of this batch. -/
theorem span_uuid_preserved (project user : Nat) (records : List Record) (st st' : Store)
    (hok : RelationExamples.create project user records st = .ok st') :
    ∃ newSpans, st'.spans = st.spans ++ newSpans ∧
      List.Forall₂ (fun (s : SpanPayload) (d : SpanRow) => d.uuid = s.uuid)
        (records.flatMap Record.selectSpans) newSpans ∧
      ((∀ d ∈ st.spans,
          d.uuid ∉ (records.flatMap Record.selectSpans).map SpanPayload.uuid) →
        st'.spans.filter (fun d =>
          ((records.flatMap Record.selectSpans).map SpanPayload.uuid).contains d.uuid) =
          newSpans) := by
  obtain ⟨spanLabels, idm, rels, heq1, heq2, heq3, hst'⟩ := relation_create_decomposed hok
  subst hst'
  have hlen : records.length = (createData project records st).1.length :=
    (createData_fst_length project records st).symm
  have hspan := span_extraction_payload hlen heq1
  have huuidF : List.Forall₂ (fun (s : SpanPayload) (d : SpanRow) => d.uuid = s.uuid)
      (records.flatMap Record.selectSpans)
      (assignSpanIds (spanLabels.filterMap DurableLabel.asSpan)
        (createLabelType project records (createData project records st).2).next_id) :=
    assignSpanIds_forall₂ (fun _ _ _ h => h) _ (hspan.imp (fun _ _ h => h.1))
  refine ⟨assignSpanIds (spanLabels.filterMap DurableLabel.asSpan)
      (createLabelType project records (createData project records st).2).next_id,
    rfl, huuidF, ?_⟩
  intro hfresh
  have hmapuuid := map_eq_of_forall₂ huuidF
  show ((st.spans ++ assignSpanIds (spanLabels.filterMap DurableLabel.asSpan)
      (createLabelType project records (createData project records st).2).next_id).filter
    (fun d =>
      ((records.flatMap Record.selectSpans).map SpanPayload.uuid).contains d.uuid)) = _
  rw [List.filter_append]
  have h1 : st.spans.filter (fun d =>
      ((records.flatMap Record.selectSpans).map SpanPayload.uuid).contains d.uuid) = [] := by
    refine List.filter_eq_nil_iff.mpr ?_
    intro d hd
    simpa using hfresh d hd
  have h2 : (assignSpanIds (spanLabels.filterMap DurableLabel.asSpan)
      (createLabelType project records (createData project records st).2).next_id).filter
      (fun d =>
        ((records.flatMap Record.selectSpans).map SpanPayload.uuid).contains d.uuid) =
      assignSpanIds (spanLabels.filterMap DurableLabel.asSpan)
        (createLabelType project records (createData project records st).2).next_id := by
    refine List.filter_eq_self.mpr ?_
    intro d hd
    refine List.elem_eq_true_of_mem ?_
    rw [← hmapuuid]
    exact List.mem_map_of_mem _ hd
  rw [h1, h2, List.nil_append]

/-- C5 witness: the uuid-preservation theorem applied to a concrete relation
batch (spans u1/u2 plus one relation) against the empty store. -/
theorem span_uuid_preserved_witness :
    ∃ st', RelationExamples.create 1 7 relRecs emptyStore = .ok st' ∧
      (∃ newSpans, st'.spans = emptyStore.spans ++ newSpans ∧
        List.Forall₂ (fun (s : SpanPayload) (d : SpanRow) => d.uuid = s.uuid)
          (relRecs.flatMap Record.selectSpans) newSpans ∧
        ((∀ d ∈ emptyStore.spans,
            d.uuid ∉ (relRecs.flatMap Record.selectSpans).map SpanPayload.uuid) →
          st'.spans.filter (fun d =>
            ((relRecs.flatMap Record.selectSpans).map SpanPayload.uuid).contains d.uuid) =
            newSpans)) := by
  have hok : (RelationExamples.create 1 7 relRecs emptyStore).isOk = true := by decide
  cases h : RelationExamples.create 1 7 relRecs emptyStore with
  | error e => rw [h] at hok; exact absurd hok (by simp [Except.isOk, Except.toBool])
  | ok st' => exact ⟨st', rfl, span_uuid_preserved 1 7 relRecs emptyStore st' h⟩

/-- C2: if, after the span phase of the relation variant has built the
id-to-durable-Span mapping, some relation label of the batch references a
transient span id absent from that mapping, then `create_label` returns an
error (the KeyError propagates): the batch is never committed with the
relation dropped or with a null endpoint. -/
theorem relation_dangling_fails (project user : Nat) (records : List Record)
    (examples : List ExampleRow) (st : Store) (m : List (Nat × SpanRow))
    (rec : Record) (rp : RelationPayload)
    (hlen : records.length = examples.length)
    (hphase : RelationExamples.spanPhase project user records examples st = .ok m)
    (hrec : rec ∈ records) (hl : Label.relation rp ∈ rec.label)
    (hmiss : dictGet m rp.from_id = none ∨ dictGet m rp.to_id = none) :
    ∃ e, RelationExamples.create_label project user records examples st = .error e := by
  simp only [RelationExamples.spanPhase] at hphase
  split at hphase
  · exact absurd hphase (by simp)
  next spanLabels heq1 =>
    have hpre : RelationExamples.create_label project user records examples st =
        match extractLabels user records examples (createMapping project st.relation_types)
            (some .relationK) (some m) with
        | .error e => .error e
        | .ok rels => .ok (insertRelations (rels.filterMap DurableLabel.asRelation)
            (insertSpans (spanLabels.filterMap DurableLabel.asSpan) st)) := by
      simp only [RelationExamples.create_label, heq1, hphase]
    cases hre : extractLabels user records examples (createMapping project st.relation_types)
        (some .relationK) (some m) with
    | error e => exact ⟨e, by rw [hpre, hre]⟩
    | ok rels =>
      exfalso
      have hchar := extractLabels_filtered_forall₂ hlen hre
      have hmem : Label.relation rp ∈ records.flatMap
          (fun r => r.label.filter (fun l => l.isKind .relationK)) :=
        List.mem_flatMap.mpr ⟨rec, hrec, List.mem_filter.mpr ⟨hl, rfl⟩⟩
      obtain ⟨dl, _, ex, hcr⟩ := forall₂_mem_left hchar hmem
      simp only [Label.create] at hcr
      cases hm1 : createMapping project st.relation_types rp.type with
      | none => rw [hm1] at hcr; exact absurd hcr (by simp)
      | some tt =>
        rw [hm1] at hcr
        rcases hmiss with hmiss | hmiss
        · rw [hmiss] at hcr
          exact absurd hcr (by simp)
        · cases hdA : dictGet m rp.from_id with
          | none => rw [hdA] at hcr; exact absurd hcr (by simp)
          | some dA =>
            rw [hdA, hmiss] at hcr
            exact absurd hcr (by simp)

/-- C2 witness: the dangling-reference theorem applied to a batch whose
relation references span id 9, absent from the (explicitly computed)
id-to-durable-Span mapping. -/
theorem relation_dangling_fails_witness :
    danglingRecs.length = danglingExamples.length ∧
    RelationExamples.spanPhase 1 7 danglingRecs danglingExamples danglingStore =
      .ok [(1, ⟨20, 5, 7, "u1", 0, 3, 10⟩)] ∧
    danglingRec ∈ danglingRecs ∧
    Label.relation ⟨1, 9, "lives_in"⟩ ∈ danglingRec.label ∧
    dictGet [(1, ⟨20, 5, 7, "u1", 0, 3, 10⟩)] 9 = none ∧
    (∃ e, RelationExamples.create_label 1 7 danglingRecs danglingExamples danglingStore =
      .error e) :=
  ⟨by decide, by rfl, by decide, by decide, by decide,
    relation_dangling_fails 1 7 danglingRecs danglingExamples danglingStore
      [(1, ⟨20, 5, 7, "u1", 0, 3, 10⟩)] danglingRec ⟨1, 9, "lives_in"⟩
      (by decide) (by rfl) (by decide) (by decide) (Or.inr (by decide))⟩

/-- C1: relation resolution correctness.  For every batch committed through
the relation variant (with unambiguous transient span ids), the durable
Relations appended to the store align one-to-one with the batch's relation
labels, and each one resolves its endpoints and type correctly: whenever the
batch's span with uuid A (resp. B) is the one the relation references via its
transient from (resp. to) id, the durable row's from_id (resp. to_id) is the
id of a durable Span of the store whose uuid is A (resp. B), and its type is
the LabelType obtained from the RelationType mapping at the relation's type
name. -/
theorem relation_resolution_correct (project user : Nat) (records : List Record)
    (st st' : Store)
    (hnodup : ((records.flatMap Record.selectSpans).map SpanPayload.id).Nodup)
    (hok : RelationExamples.create project user records st = .ok st') :
    ∃ newRels, st'.relations = st.relations ++ newRels ∧
      List.Forall₂ (fun (rp : RelationPayload) (rrow : RelationRow) =>
          (∀ sA ∈ records.flatMap Record.selectSpans, sA.id = rp.from_id →
            ∃ dA, dA ∈ st'.spans ∧ dA.uuid = sA.uuid ∧ rrow.from_id = dA.id) ∧
          (∀ sB ∈ records.flatMap Record.selectSpans, sB.id = rp.to_id →
            ∃ dB, dB ∈ st'.spans ∧ dB.uuid = sB.uuid ∧ rrow.to_id = dB.id) ∧
          (∃ tt, createMapping project st'.relation_types rp.type = some tt ∧
            rrow.type = tt.id))
        (records.flatMap Record.selectRelations) newRels := by
  obtain ⟨spanLabels, idm, rels, heq1, heq2, heq3, hst'⟩ := relation_create_decomposed hok
  subst hst'
  have hlen : records.length = (createData project records st).1.length :=
    (createData_fst_length project records st).symm
  have hidm := relationIdToSpan_spec heq2
  have hrel := relation_extraction_payload hlen heq3
  refine ⟨assignRelationIds (rels.filterMap DurableLabel.asRelation)
      (insertSpans (spanLabels.filterMap DurableLabel.asSpan)
        (createLabelType project records (createData project records st).2)).next_id,
    rfl, ?_⟩
  refine assignRelationIds_forall₂ ?_ _ hrel
  intro rp row n hP
  obtain ⟨⟨tt, htt, htype⟩, ⟨dA, hdA, hfrom⟩, ⟨dB, hdB, hto⟩⟩ := hP
  refine ⟨?_, ?_, ⟨tt, htt, htype⟩⟩
  · intro sA hsA hid
    obtain ⟨htbl, huuid⟩ := dictGet_resolves hidm hnodup hdA hsA hid
    exact ⟨dA, htbl, huuid, hfrom⟩
  · intro sB hsB hid
    obtain ⟨htbl, huuid⟩ := dictGet_resolves hidm hnodup hdB hsB hid
    exact ⟨dB, htbl, huuid, hto⟩

/-- C1 witness: resolution correctness applied to a concrete batch with spans
u1 ("PER") and u2 ("LOC") and a relation `{from: 1, to: 2, type: lives_in}`,
against the empty store. -/
theorem relation_resolution_correct_witness :
    ((relRecs.flatMap Record.selectSpans).map SpanPayload.id).Nodup ∧
    (∃ st', RelationExamples.create 1 7 relRecs emptyStore = .ok st' ∧
      ∃ newRels, st'.relations = emptyStore.relations ++ newRels ∧
        List.Forall₂ (fun (rp : RelationPayload) (rrow : RelationRow) =>
            (∀ sA ∈ relRecs.flatMap Record.selectSpans, sA.id = rp.from_id →
              ∃ dA, dA ∈ st'.spans ∧ dA.uuid = sA.uuid ∧ rrow.from_id = dA.id) ∧
            (∀ sB ∈ relRecs.flatMap Record.selectSpans, sB.id = rp.to_id →
              ∃ dB, dB ∈ st'.spans ∧ dB.uuid = sB.uuid ∧ rrow.to_id = dB.id) ∧
            (∃ tt, createMapping 1 st'.relation_types rp.type = some tt ∧
              rrow.type = tt.id))
          (relRecs.flatMap Record.selectRelations) newRels) := by
  refine ⟨by decide, ?_⟩
  have hok : (RelationExamples.create 1 7 relRecs emptyStore).isOk = true := by decide
  cases h : RelationExamples.create 1 7 relRecs emptyStore with
  | error e => rw [h] at hok; exact absurd hok (by simp [Except.isOk, Except.toBool])
  | ok st' =>
    exact ⟨st', rfl, relation_resolution_correct 1 7 relRecs emptyStore st' (by decide) h⟩

end Doccano
